import Mathlib

/-!
Shallow embedding of the IMAP APPEND handler `onAppend` from
`src/config/store-sessions.js` (the third document in that file, the
WildDuck-derived append pipeline of Forward Email).

Modelling conventions:
* The storage backend (MongoDB collections `Mailboxes`, `Messages`, the
  notifier journal, the attachment blob store, and the alias
  `pgp_error_sent_at` field) is an explicit `Store` record threaded through
  the pipeline.
* External collaborators that live outside `src/` — `Aliases.isOverQuota`,
  `Domains.getMaxQuota`, `encryptMessage`, `this.prepareMessage`,
  `getFingerprint`, `Threads.getThreadId`, the alert-email dispatcher, and
  `attachmentStorage.deleteMany`'s success/failure — are oracles collected
  in an `Env` record; the pipeline consumes their outputs exactly the way
  the source does.
* The 64 MB size guard runs in the protocol-facing branch of `onAppend`
  (the `this.wsp` branch, lines 292-302) before the request is forwarded to
  the storage handler; the model composes the guard with the storage
  pipeline, which is how every append request flows end to end.
* MIME parsing is abstracted: the `mimeTree` stored on a message is
  represented by the raw message value it was parsed from, and
  `this.indexer.storeNodeBodies` appends the prepared attachment ids to the
  blob store (its boolean result is true when some body was stored).
* Times are integer milliseconds; `dayjs().subtract(1, 'day')` /
  `'hour'` become subtraction of the corresponding constants.
-/

namespace ForwardEmail

/-- Raw RFC822 message, abstracted to its byte length plus an opaque
content identifier standing for the bytes. -/
structure RawMessage where
  size : Nat
  body : String
  deriving Repr, DecidableEq

/-- Failure raised by the external `encryptMessage` helper, classified the
way `isCodeBug` and `isRetryableError` classify it in the source. -/
structure EncFailure where
  codeBug : Bool
  retryable : Bool
  deriving Repr, DecidableEq

/-- The fields of `session.user` that the append pipeline reads. -/
structure SessionUser where
  alias_id : Nat
  domain_id : Nat
  alias_has_pgp : Bool
  alias_public_key : Option String
  deriving Repr, DecidableEq

/-- The session fields the pipeline reads; `checkForExisting` is set only
by the `tmp` command in the parse-payload delivery path. -/
structure Session where
  user : SessionUser
  checkForExisting : Bool
  deriving Repr, DecidableEq

/-- A `Mailboxes` document (the fields `onAppend` touches). -/
structure MailboxDoc where
  mid : Nat
  path : String
  uidValidity : Nat
  uidNext : Nat
  modifyIndex : Nat
  specialUse : Option String
  retention : Nat
  deriving Repr, DecidableEq

/-- A `Messages` document as built by the `data` object of `onAppend`
(lines 643-728); `mimeTree` is the raw value the message was parsed from. -/
structure MessageDoc where
  mid : Nat
  mailbox : Nat
  thread : Nat
  root : Nat
  fingerprint : String
  uid : Nat
  modseq : Nat
  flags : List String
  size : Nat
  msgid : String
  subject : String
  text : String
  exp : Bool
  unseen : Bool
  flagged : Bool
  undeleted : Bool
  draft : Bool
  searchable : Bool
  junk : Bool
  attachments : List Nat
  mimeTree : RawMessage
  deriving Repr, DecidableEq

/-- A journal entry written by `this.server.notifier.addEntries`. -/
structure JournalEntry where
  command : String
  uid : Nat
  mailbox : Nat
  message : Nat
  deriving Repr, DecidableEq

/-- The mutable storage state threaded through the pipeline.
`blobs` lists the attachment blobs currently stored (one entry per stored
body), `pgpErrorSentAt` is the alias `pgp_error_sent_at` field, and
`alertEmails` counts PGP-failure alert emails delivered to the owner. -/
structure Store where
  mailboxes : List MailboxDoc
  messages : List MessageDoc
  journal : List JournalEntry
  blobs : List Nat
  pgpErrorSentAt : Option Int
  alertEmails : Nat
  deriving Repr, DecidableEq

/-- Output of the external `this.prepareMessage` MIME parse. -/
structure Prepared where
  id : Nat
  size : Nat
  msgid : String
  subject : String
  text : String
  attachmentIds : List Nat
  magic : Nat
  deriving Repr, DecidableEq

/-- An `IMAPError`: an i18n key plus the optional `imapResponse` hint
(`TRYCREATE` or `OVERQUOTA`). -/
structure IMAPErr where
  key : String
  imapResponse : Option String
  deriving Repr, DecidableEq

/-- Oracles for the external collaborators of a single append call. -/
structure Env where
  isOverQuota : Bool
  storageUsed : Nat
  maxQuotaPerAlias : Nat
  encrypt : RawMessage → Except EncFailure RawMessage
  prepare : RawMessage → Prepared
  fingerprintOf : RawMessage → String
  threadId : Nat
  now : Int
  refreshTime : Int
  emailOk : Bool
  cleanupOk : Bool
  persistErr : Option IMAPErr

/-- `bytes('64MB')`, the hard cap checked before forwarding an append. -/
def SIXTY_FOUR_MB_IN_BYTES : Nat := 67108864

/-- One hour in milliseconds. -/
def hourMs : Int := 3600000

/-- One day in milliseconds. -/
def dayMs : Int := 86400000

/-- The `\Draft` system flag. -/
def draftFlag : String := "\\Draft"

/-- The guard of the encryption gate (line 388-391): message not flagged
Draft, alias has PGP enabled and a public key on file. -/
def shouldEncrypt (session : Session) (flags : List String) : Bool :=
  !(flags.contains draftFlag) && session.user.alias_has_pgp &&
    session.user.alias_public_key.isSome

/-- The conditional update throttling PGP-failure alert emails
(lines 420-505): the update matches only when `pgp_error_sent_at` is absent
or at least one day old; on a match the stamp is set to `now` and the alert
email is attempted — on delivery success the stamp is refreshed to the
send-completion time, on delivery failure it is unset again. Returns the
resulting stamp and the number of alert emails delivered. -/
def pgpAlertThrottle (sentAt : Option Int) (now refreshTime : Int)
    (emailOk : Bool) : Option Int × Nat :=
  let matched :=
    match sentAt with
    | none => true
    | some t => decide (t ≤ now - dayMs)
  if matched then
    if emailOk then (some refreshTime, 1) else (none, 0)
  else (sentAt, 0)

/-- Result of the encryption gate: the (possibly encrypted) raw message,
the new `pgp_error_sent_at` stamp, and the number of alert emails sent. -/
structure GateResult where
  raw : RawMessage
  pgpErrorSentAt : Option Int
  alertsSent : Nat
  deriving Repr, DecidableEq

/-- The encryption gate (lines 387-508). On success the throttle stamp is
unset if it is at least one hour old; on a failure that is neither a code
bug nor retryable, the alert throttle runs; every other failure only logs.
The gate never throws: the append continues with the raw it returns. -/
def encryptionGate (session : Session) (flags : List String)
    (raw : RawMessage) (sentAt : Option Int) (env : Env) : GateResult :=
  if shouldEncrypt session flags then
    match env.encrypt raw with
    | Except.ok encrypted =>
        let cleared :=
          match sentAt with
          | some t => if t ≤ env.now - hourMs then none else some t
          | none => none
        { raw := encrypted, pgpErrorSentAt := cleared, alertsSent := 0 }
    | Except.error e =>
        if !e.codeBug && !e.retryable then
          let r := pgpAlertThrottle sentAt env.now env.refreshTime env.emailOk
          { raw := raw, pgpErrorSentAt := r.1, alertsSent := r.2 }
        else { raw := raw, pgpErrorSentAt := sentAt, alertsSent := 0 }
  else { raw := raw, pgpErrorSentAt := sentAt, alertsSent := 0 }

/-- `Mailboxes.findByIdAndUpdate(id, inc uidNext 1, inc modifyIndex 1,
returnDocument before)` (lines 680-693): one atomic operation that bumps
both counters of the matching document and returns the pre-increment
document. -/
def findByIdAndUpdateIncBoth :
    List MailboxDoc → Nat → Option MailboxDoc × List MailboxDoc
  | [], _ => (none, [])
  | mb :: rest, target =>
    if mb.mid = target then
      (some mb,
        { mb with uidNext := mb.uidNext + 1,
                  modifyIndex := mb.modifyIndex + 1 } :: rest)
    else
      let r := findByIdAndUpdateIncBoth rest target
      (r.1, mb :: r.2)

/-- `attachmentStorage.deleteMany`: remove one stored occurrence of each
listed blob id (reference-count decrement at this abstraction). -/
def deleteManyBlobs (blobs : List Nat) (ids : List Nat) : List Nat :=
  ids.foldl (fun acc b => acc.erase b) blobs

/-- `refineAndLogError`: logs and refines the thrown error; observationally
(error kind and protocol hint) it is the identity at this abstraction. -/
def refineAndLogError (e : IMAPErr) : IMAPErr := e

/-- The response object handed to `fn` on success (lines 744-752). -/
structure AppendResponse where
  uidValidity : Nat
  uid : Nat
  id : Nat
  mailbox : Nat
  mailboxPath : String
  size : Nat
  status : String
  deriving Repr, DecidableEq

/-- What the caller observes from one append. -/
inductive AppendResult where
  | ok (resp : AppendResponse)
  | error (e : IMAPErr)
  deriving Repr, DecidableEq

/-- Failure context carried to the catch handler: the store at the throw
site, whether `storeNodeBodies` had completed, the attachment-map ids, and
the thrown error. -/
structure FailCtx where
  st : Store
  hasNodeBodies : Bool
  attachmentIds : List Nat
  err : IMAPErr

/-- The catch block of `onAppend` (lines 778-804): if node bodies were
stored, delete the attachment blobs (a failure of the deletion itself is
logged and swallowed), then propagate the refined original error. -/
def onAppendCatch (ctx : FailCtx) (cleanupOk : Bool) : Store × AppendResult :=
  let ids := if ctx.hasNodeBodies then ctx.attachmentIds else []
  let st2 :=
    if ids.isEmpty then ctx.st
    else if cleanupOk then
      { ctx.st with blobs := deleteManyBlobs ctx.st.blobs ids }
    else ctx.st
  (st2, AppendResult.error (refineAndLogError ctx.err))

/-- The try block of the storage-side append pipeline (lines 337-777),
step by step in source order: over-quota pre-check at zero bytes, mailbox
lookup by path (TRYCREATE when absent), encryption gate, MIME parse,
fingerprint, opt-in dedup short-circuit, final quota check with the true
size, node-body storage, atomic counter allocation (TRYCREATE when the
mailbox vanished), message construction (Drafts flag push, junk flag,
derived booleans), persistence, journal entry. -/
def onAppendTry (path : String) (flags : List String) (raw : RawMessage)
    (session : Session) (st : Store) (env : Env) :
    Except FailCtx (Store × AppendResponse) :=
  if env.isOverQuota then
    Except.error ⟨st, false, [],
      { key := "IMAP_MAILBOX_OVER_QUOTA", imapResponse := some "OVERQUOTA" }⟩
  else
    match st.mailboxes.find? (fun mb => mb.path = path) with
    | none =>
        Except.error ⟨st, false, [],
          { key := "IMAP_MAILBOX_DOES_NOT_EXIST",
            imapResponse := some "TRYCREATE" }⟩
    | some mailbox =>
      let gate := encryptionGate session flags raw st.pgpErrorSentAt env
      let st1 : Store :=
        { st with pgpErrorSentAt := gate.pgpErrorSentAt,
                  alertEmails := st.alertEmails + gate.alertsSent }
      let prepared := env.prepare gate.raw
      let fingerprint := env.fingerprintOf gate.raw
      let dedupHit :=
        if session.checkForExisting then
          st1.messages.find? (fun m =>
            m.fingerprint = fingerprint && m.mailbox = mailbox.mid)
        else none
      match dedupHit with
      | some existingMessage =>
          Except.ok (st1,
            { uidValidity := mailbox.uidValidity,
              uid := existingMessage.uid,
              id := existingMessage.mid,
              mailbox := mailbox.mid,
              mailboxPath := mailbox.path,
              size := existingMessage.size,
              status := "new" })
      | none =>
        if env.storageUsed + prepared.size > env.maxQuotaPerAlias then
          Except.error ⟨st1, false, [],
            { key := "IMAP_MAILBOX_MESSAGE_EXCEEDS_QUOTA",
              imapResponse := some "OVERQUOTA" }⟩
        else
          let hasNodeBodies := !prepared.attachmentIds.isEmpty
          let st2 : Store :=
            { st1 with blobs := st1.blobs ++ prepared.attachmentIds }
          let alloc := findByIdAndUpdateIncBoth st2.mailboxes mailbox.mid
          match alloc.1 with
          | none =>
              Except.error ⟨st2, hasNodeBodies, prepared.attachmentIds,
                { key := "IMAP_MAILBOX_DOES_NOT_EXIST",
                  imapResponse := some "TRYCREATE" }⟩
          | some mb =>
            let flags2 :=
              if mb.specialUse == some "\\Drafts" then flags ++ [draftFlag]
              else flags
            let message : MessageDoc :=
              { mid := prepared.id,
                mailbox := mb.mid,
                thread := env.threadId,
                root := prepared.id,
                fingerprint := fingerprint,
                uid := mb.uidNext,
                modseq := mb.modifyIndex + 1,
                flags := flags2,
                size := prepared.size,
                msgid := prepared.msgid,
                subject := prepared.subject,
                text := prepared.text,
                exp := mailbox.retention != 0,
                unseen := !(flags.contains "\\Seen"),
                flagged := flags.contains "\\Flagged",
                undeleted := !(flags.contains "\\Deleted"),
                draft := flags.contains draftFlag,
                searchable := !(flags.contains "\\Deleted"),
                junk := mb.specialUse == some "\\Junk",
                attachments := prepared.attachmentIds,
                mimeTree := gate.raw }
            match env.persistErr with
            | some e =>
                Except.error ⟨{ st2 with mailboxes := alloc.2 },
                  hasNodeBodies, prepared.attachmentIds, e⟩
            | none =>
              let st3 : Store :=
                { st2 with
                    mailboxes := alloc.2,
                    messages := st2.messages ++ [message],
                    journal := st2.journal ++
                      [{ command := "EXISTS", uid := message.uid,
                         mailbox := mb.mid, message := message.mid }] }
              Except.ok (st3,
                { uidValidity := mb.uidValidity,
                  uid := message.uid,
                  id := prepared.id,
                  mailbox := mb.mid,
                  mailboxPath := mb.path,
                  size := prepared.size,
                  status := "new" })

/-- One end-to-end append: the 64 MB guard of the protocol-facing branch,
then the storage pipeline, with thrown errors routed through the catch
handler. -/
def onAppend (path : String) (flags : List String) (raw : RawMessage)
    (session : Session) (st : Store) (env : Env) : Store × AppendResult :=
  if raw.size > SIXTY_FOUR_MB_IN_BYTES then
    (st, AppendResult.error
      { key := "IMAP_MESSAGE_SIZE_EXCEEDED", imapResponse := none })
  else
    match onAppendTry path flags raw session st env with
    | Except.ok r => (r.1, AppendResult.ok r.2)
    | Except.error ctx => onAppendCatch ctx env.cleanupOk

/-- One queued append request (inputs of a single `onAppend` call). -/
structure AppendReq where
  path : String
  flags : List String
  raw : RawMessage
  session : Session
  env : Env

/-- Run a sequence of append calls against a store. -/
def runAppends (st : Store) : List AppendReq → Store
  | [] => st
  | r :: rest =>
      runAppends (onAppend r.path r.flags r.raw r.session st r.env).1 rest

/-- `{ mb with uidNext := mb.uidNext + 1, modifyIndex := mb.modifyIndex + 1 }`:
the post-increment image of a mailbox document under the atomic allocator. -/
def incDoc (mb : MailboxDoc) : MailboxDoc :=
  { mb with uidNext := mb.uidNext + 1, modifyIndex := mb.modifyIndex + 1 }

/-- The message document a successful (non-dedup) append stores, as a
function of the caller flags, the environment, the resolved mailbox (which
is also the pre-increment document the allocator returned), the encryption
gate result and the MIME parse output. -/
def successMessage (flags : List String) (env : Env) (mbox : MailboxDoc)
    (g : GateResult) (p : Prepared) : MessageDoc :=
  { mid := p.id, mailbox := mbox.mid, thread := env.threadId, root := p.id,
    fingerprint := env.fingerprintOf g.raw, uid := mbox.uidNext,
    modseq := mbox.modifyIndex + 1,
    flags :=
      if mbox.specialUse == some "\\Drafts" then flags ++ [draftFlag]
      else flags,
    size := p.size, msgid := p.msgid, subject := p.subject, text := p.text,
    exp := mbox.retention != 0,
    unseen := !(flags.contains "\\Seen"),
    flagged := flags.contains "\\Flagged",
    undeleted := !(flags.contains "\\Deleted"),
    draft := flags.contains draftFlag,
    searchable := !(flags.contains "\\Deleted"),
    junk := mbox.specialUse == some "\\Junk",
    attachments := p.attachmentIds, mimeTree := g.raw }

/-- Mailbox document ids are pairwise distinct (Mongo `_id` uniqueness). -/
def midsNodup (st : Store) : Prop :=
  (st.mailboxes.map MailboxDoc.mid).Nodup

/-- Every stored message's uid is below its mailbox's `uidNext` and its
modseq is at most its mailbox's `modifyIndex`. -/
def countersBound (st : Store) : Prop :=
  ∀ m ∈ st.messages, ∀ mb ∈ st.mailboxes,
    m.mailbox = mb.mid → m.uid < mb.uidNext ∧ m.modseq ≤ mb.modifyIndex

/-- Messages of one mailbox carry strictly increasing (uid, modseq) pairs
in creation order. -/
def messagesOrdered (st : Store) : Prop :=
  st.messages.Pairwise (fun a b =>
    a.mailbox = b.mailbox → a.uid < b.uid ∧ a.modseq < b.modseq)

/-- Every mailbox of the first store still exists in the second with the
same id and counters at least as large. -/
def storeLe (st st2 : Store) : Prop :=
  ∀ mb ∈ st.mailboxes, ∃ mb2 ∈ st2.mailboxes,
    mb2.mid = mb.mid ∧ mb.uidNext ≤ mb2.uidNext ∧
      mb.modifyIndex ≤ mb2.modifyIndex

/-! ### Concrete fixtures used by witnesses and counterexamples -/

/-- A plain INBOX mailbox. -/
def mbInbox : MailboxDoc :=
  { mid := 1, path := "INBOX", uidValidity := 17, uidNext := 5,
    modifyIndex := 9, specialUse := none, retention := 0 }

/-- A Drafts mailbox with the `\Drafts` special-use tag. -/
def mbDrafts : MailboxDoc :=
  { mid := 2, path := "Drafts", uidValidity := 3, uidNext := 1,
    modifyIndex := 0, specialUse := some "\\Drafts", retention := 0 }

/-- A message already stored in the INBOX with fingerprint `fp-1`. -/
def msg0 : MessageDoc :=
  { mid := 100, mailbox := 1, thread := 50, root := 100,
    fingerprint := "fp-1", uid := 2, modseq := 4, flags := ["\\Seen"],
    size := 321, msgid := "m0", subject := "s0", text := "t0", exp := false,
    unseen := false, flagged := false, undeleted := true, draft := false,
    searchable := true, junk := false, attachments := [],
    mimeTree := { size := 321, body := "orig" } }

/-- A store holding the two mailboxes and the one stored message. -/
def st0 : Store :=
  { mailboxes := [mbInbox, mbDrafts], messages := [msg0], journal := [],
    blobs := [], pgpErrorSentAt := none, alertEmails := 0 }

/-- A small raw message. -/
def raw100 : RawMessage := { size := 100, body := "hello" }

/-- A raw message one byte over the 64 MB cap. -/
def rawBig : RawMessage := { size := 67108865, body := "big" }

/-- A session without PGP and without the dedup opt-in. -/
def sess0 : Session :=
  { user := { alias_id := 1, domain_id := 2, alias_has_pgp := false,
              alias_public_key := none },
    checkForExisting := false }

/-- The same session with `checkForExisting` set (the `tmp` command). -/
def sessDedup : Session := { sess0 with checkForExisting := true }

/-- A session whose alias has PGP configured. -/
def sessPgp : Session :=
  { user := { alias_id := 1, domain_id := 2, alias_has_pgp := true,
              alias_public_key := some "PUBKEY" },
    checkForExisting := false }

/-- A MIME-parse oracle with no attachments. -/
def prep0 : RawMessage → Prepared := fun r =>
  { id := 200, size := r.size, msgid := "m-new", subject := "s", text := "t",
    attachmentIds := [], magic := 0 }

/-- A MIME-parse oracle that yields two attachment blobs. -/
def prepAtt : RawMessage → Prepared := fun r =>
  { id := 200, size := r.size, msgid := "m-new", subject := "s", text := "t",
    attachmentIds := [31, 32], magic := 6 }

/-- Baseline environment: plenty of quota, encryption succeeds, no faults. -/
def envBase : Env :=
  { isOverQuota := false, storageUsed := 0, maxQuotaPerAlias := 100000,
    encrypt := fun r => Except.ok r, prepare := prep0,
    fingerprintOf := fun r => r.body, threadId := 50, now := 0,
    refreshTime := 0, emailOk := true, cleanupOk := true, persistErr := none }

/-- Baseline environment whose fingerprint oracle collides with `msg0`. -/
def envFp : Env := { envBase with fingerprintOf := fun _ => "fp-1" }

/-- The message the baseline fixture append stores in the INBOX. -/
def msgC2 : MessageDoc :=
  { mid := 200, mailbox := 1, thread := 50, root := 200,
    fingerprint := "hello", uid := 5, modseq := 10, flags := [], size := 100,
    msgid := "m-new", subject := "s", text := "t", exp := false,
    unseen := true, flagged := false, undeleted := true, draft := false,
    searchable := true, junk := false, attachments := [],
    mimeTree := raw100 }

/-- Two baseline append requests against the INBOX. -/
def reqs2 : List AppendReq :=
  [{ path := "INBOX", flags := [], raw := raw100, session := sess0,
     env := envBase },
   { path := "INBOX", flags := ["\\Seen"], raw := raw100, session := sess0,
     env := envBase }]

/-- Environment whose max quota equals exactly the parsed message size. -/
def envEq : Env := { envBase with maxQuotaPerAlias := 100 }

/-- Environment whose max quota is one byte below the parsed size. -/
def envOver : Env := { envBase with maxQuotaPerAlias := 99 }

/-- A permanent (neither code-bug nor retryable) encryption failure. -/
def encErrPerm : EncFailure := { codeBug := false, retryable := false }

/-- Environment whose encryption oracle always fails permanently. -/
def envEncFail : Env :=
  { envBase with encrypt := fun _ => Except.error encErrPerm }

/-- The same failing environment one second later. -/
def envEncFail2 : Env := { envEncFail with now := 1000 }

/-- Environment whose encryption succeeds, two hours in. -/
def envEncOk2h : Env := { envBase with now := 7200000 }

/-- The failing environment three hours in. -/
def envEncFail3h : Env :=
  { envEncFail with now := 10800000, refreshTime := 10800000 }

/-- A database error thrown by `Messages.create`. -/
def errDb : IMAPErr := { key := "ER_DISK_FULL", imapResponse := none }

/-- Environment with two attachment blobs and a persistence fault. -/
def envPersist : Env :=
  { envBase with prepare := prepAtt, persistErr := some errDb }

/-- The persistence-fault environment whose blob cleanup also fails. -/
def envPersistNoClean : Env := { envPersist with cleanupOk := false }

/-! ### Claim theorems -/

/-- C5: an append whose raw message is larger than the 64 MiB cap fails
with the message-size error handed to the protocol layer, and no state is
modified: the store is returned untouched (no mailbox counter change, no
message, no blob, no journal entry). -/
theorem claim_C5 (path : String) (flags : List String) (raw : RawMessage)
    (session : Session) (st : Store) (env : Env)
    (hsz : raw.size > SIXTY_FOUR_MB_IN_BYTES) :
    onAppend path flags raw session st env =
      (st, AppendResult.error
        { key := "IMAP_MESSAGE_SIZE_EXCEEDED", imapResponse := none }) := by
  simp [onAppend, hsz]

/-- C5 witness: a message one byte over the cap is rejected untouched. -/
theorem claim_C5_witness :
    rawBig.size > SIXTY_FOUR_MB_IN_BYTES ∧
    onAppend "INBOX" [] rawBig sess0 st0 envBase =
      (st0, AppendResult.error
        { key := "IMAP_MESSAGE_SIZE_EXCEEDED", imapResponse := none }) :=
  ⟨by decide, claim_C5 "INBOX" [] rawBig sess0 st0 envBase (by decide)⟩

/-- C6: an append whose target path resolves to no mailbox fails with the
mailbox-not-found error carrying the TRYCREATE hint; the store is returned
untouched, so in particular no mailbox is auto-created and nothing is
written. -/
theorem claim_C6 (path : String) (flags : List String) (raw : RawMessage)
    (session : Session) (st : Store) (env : Env)
    (hsz : ¬ raw.size > SIXTY_FOUR_MB_IN_BYTES)
    (hoq : env.isOverQuota = false)
    (hfind : st.mailboxes.find? (fun mb => mb.path = path) = none) :
    onAppend path flags raw session st env =
      (st, AppendResult.error
        { key := "IMAP_MAILBOX_DOES_NOT_EXIST",
          imapResponse := some "TRYCREATE" }) := by
  simp [onAppend, hsz, onAppendTry, hoq, hfind, onAppendCatch,
    refineAndLogError]

/-- C6 witness: appending to the absent path Nope is rejected TRYCREATE
with the store untouched. -/
theorem claim_C6_witness :
    onAppend "Nope" [] raw100 sess0 st0 envBase =
      (st0, AppendResult.error
        { key := "IMAP_MAILBOX_DOES_NOT_EXIST",
          imapResponse := some "TRYCREATE" }) :=
  claim_C6 "Nope" [] raw100 sess0 st0 envBase (by decide) (by decide)
    (by decide)

/-- C1 counterexample: with `checkForExisting` set and a fingerprint
match in the target mailbox, the code returns the existing message's
identifiers but with status new, not status existing as the claim
states. -/
theorem claim_C1_counterexample :
    (onAppend "INBOX" [] raw100 sessDedup st0 envFp).2 =
      AppendResult.ok
        { uidValidity := 17, uid := 2, id := 100, mailbox := 1,
          mailboxPath := "INBOX", size := 321, status := "new" } ∧
    ("new" : String) ≠ "existing" := by decide

/-- C1 amended: with `checkForExisting` set and an existing message found
by (fingerprint, mailbox), the append performs no further writes —
mailboxes, messages, journal and blobs all unchanged (only the encryption
gate's alias stamp may have moved, which happens before the lookup) — and
returns the existing message's uid, id and size with status new. -/
theorem claim_C1_amended (path : String) (flags : List String)
    (raw : RawMessage) (session : Session) (st : Store) (env : Env)
    (mbox : MailboxDoc) (m : MessageDoc)
    (hsz : ¬ raw.size > SIXTY_FOUR_MB_IN_BYTES)
    (hoq : env.isOverQuota = false)
    (hfind : st.mailboxes.find? (fun mb => mb.path = path) = some mbox)
    (hchk : session.checkForExisting = true)
    (hhit : st.messages.find? (fun x =>
        x.fingerprint = env.fingerprintOf
          (encryptionGate session flags raw st.pgpErrorSentAt env).raw &&
        x.mailbox = mbox.mid) = some m) :
    onAppend path flags raw session st env =
      ({ st with
           pgpErrorSentAt :=
             (encryptionGate session flags raw st.pgpErrorSentAt
               env).pgpErrorSentAt,
           alertEmails := st.alertEmails +
             (encryptionGate session flags raw st.pgpErrorSentAt
               env).alertsSent },
       AppendResult.ok
         { uidValidity := mbox.uidValidity, uid := m.uid, id := m.mid,
           mailbox := mbox.mid, mailboxPath := mbox.path, size := m.size,
           status := "new" }) := by
  simp [onAppend, hsz, onAppendTry, hoq, hfind, hchk, hhit]

/-- C1 witness: the amended statement at the concrete dedup fixture. -/
theorem claim_C1_witness :
    onAppend "INBOX" [] raw100 sessDedup st0 envFp =
      ({ st0 with
           pgpErrorSentAt :=
             (encryptionGate sessDedup [] raw100 st0.pgpErrorSentAt
               envFp).pgpErrorSentAt,
           alertEmails := st0.alertEmails +
             (encryptionGate sessDedup [] raw100 st0.pgpErrorSentAt
               envFp).alertsSent },
       AppendResult.ok
         { uidValidity := mbInbox.uidValidity, uid := msg0.uid,
           id := msg0.mid, mailbox := mbInbox.mid,
           mailboxPath := mbInbox.path, size := msg0.size,
           status := "new" }) :=
  claim_C1_amended "INBOX" [] raw100 sessDedup st0 envFp mbInbox msg0
    (by decide) (by decide) (by decide) (by decide) (by decide)

/-! ### Properties of the atomic counter allocator -/

/-- If the allocator matched, the matched document carries the target id
and the update replaced exactly that document by its increment, leaving
every other document untouched. -/
lemma alloc_decomp (L : List MailboxDoc) (k : Nat) (mb : MailboxDoc)
    (h : (findByIdAndUpdateIncBoth L k).1 = some mb) :
    mb.mid = k ∧ ∃ pre post, L = pre ++ mb :: post ∧
      (findByIdAndUpdateIncBoth L k).2 = pre ++ incDoc mb :: post ∧
      ∀ x ∈ pre, x.mid ≠ k := by
  induction L with
  | nil => simp [findByIdAndUpdateIncBoth] at h
  | cons a rest ih =>
    by_cases hk : a.mid = k
    · simp only [findByIdAndUpdateIncBoth, if_pos hk, Option.some.injEq] at h
      subst h
      refine ⟨hk, [], rest, rfl, ?_, by simp⟩
      simp [findByIdAndUpdateIncBoth, if_pos hk, incDoc]
    · simp only [findByIdAndUpdateIncBoth, if_neg hk] at h
      obtain ⟨hmid, pre, post, hL, hsnd, hpre⟩ := ih h
      refine ⟨hmid, a :: pre, post, by simp [hL], ?_, ?_⟩
      · simp [findByIdAndUpdateIncBoth, if_neg hk, hsnd]
      · intro x hx
        rcases List.mem_cons.mp hx with hx | hx
        · subst hx; exact hk
        · exact hpre x hx

/-- If the allocator matched nothing, the mailbox list is unchanged. -/
lemma alloc_none_snd (L : List MailboxDoc) (k : Nat)
    (h : (findByIdAndUpdateIncBoth L k).1 = none) :
    (findByIdAndUpdateIncBoth L k).2 = L := by
  induction L with
  | nil => simp [findByIdAndUpdateIncBoth]
  | cons a rest ih =>
    by_cases hk : a.mid = k
    · simp [findByIdAndUpdateIncBoth, if_pos hk] at h
    · simp only [findByIdAndUpdateIncBoth, if_neg hk] at h ⊢
      simp [ih h]

/-- The allocator never changes the list of document ids. -/
lemma alloc_map_mid (L : List MailboxDoc) (k : Nat) :
    ((findByIdAndUpdateIncBoth L k).2).map MailboxDoc.mid =
      L.map MailboxDoc.mid := by
  induction L with
  | nil => simp [findByIdAndUpdateIncBoth]
  | cons a rest ih =>
    by_cases hk : a.mid = k
    · simp [findByIdAndUpdateIncBoth, if_pos hk, incDoc]
    · simp [findByIdAndUpdateIncBoth, if_neg hk, ih]

/-- Every document of the updated list is an old document or the increment
of the matched one. -/
lemma alloc_mem_cases (L : List MailboxDoc) (k : Nat) :
    ∀ x ∈ (findByIdAndUpdateIncBoth L k).2,
      x ∈ L ∨ ∃ mb, (findByIdAndUpdateIncBoth L k).1 = some mb ∧
        x = incDoc mb := by
  intro x hx
  cases hfst : (findByIdAndUpdateIncBoth L k).1 with
  | none => rw [alloc_none_snd L k hfst] at hx; exact Or.inl hx
  | some mb =>
    obtain ⟨hmid, pre, post, hL, hsnd, hpre⟩ := alloc_decomp L k mb hfst
    rw [hsnd] at hx
    rcases List.mem_append.mp hx with hx | hx
    · exact Or.inl (hL ▸ List.mem_append.mpr (Or.inl hx))
    · rcases List.mem_cons.mp hx with hx | hx
      · exact Or.inr ⟨mb, rfl, hx⟩
      · exact Or.inl (hL ▸ List.mem_append.mpr (Or.inr (List.mem_cons_of_mem _ hx)))

/-- Under distinct document ids, any updated document carrying the target
id is exactly the increment of the matched document. -/
lemma alloc_unique_mid (L : List MailboxDoc) (k : Nat) (mb : MailboxDoc)
    (hnd : (L.map MailboxDoc.mid).Nodup)
    (h : (findByIdAndUpdateIncBoth L k).1 = some mb) :
    ∀ x ∈ (findByIdAndUpdateIncBoth L k).2, x.mid = k → x = incDoc mb := by
  obtain ⟨hmid, pre, post, hL, hsnd, hpre⟩ := alloc_decomp L k mb h
  intro x hx hxk
  rw [hsnd] at hx
  rcases List.mem_append.mp hx with hx | hx
  · exact absurd hxk (hpre x hx)
  · rcases List.mem_cons.mp hx with hx | hx
    · exact hx
    · exfalso
      rw [hL] at hnd
      simp only [List.map_append, List.map_cons] at hnd
      have h2 : (mb.mid :: post.map MailboxDoc.mid).Nodup :=
        (List.nodup_append.mp hnd).2.1
      have hmb : mb.mid ∉ post.map MailboxDoc.mid := (List.nodup_cons.mp h2).1
      have hxm : x.mid ∈ post.map MailboxDoc.mid :=
        List.mem_map_of_mem MailboxDoc.mid hx
      rw [hxk, ← hmid] at hxm
      exact hmb hxm

/-- A document present in a list with distinct ids is the one the
allocator matches when keyed by its id. -/
lemma alloc_fst_of_mem_nodup (L : List MailboxDoc) (mb : MailboxDoc)
    (hm : mb ∈ L) (hnd : (L.map MailboxDoc.mid).Nodup) :
    (findByIdAndUpdateIncBoth L mb.mid).1 = some mb := by
  induction L with
  | nil => cases hm
  | cons a rest ih =>
    rcases List.mem_cons.mp hm with hm | hm
    · subst hm
      simp [findByIdAndUpdateIncBoth]
    · by_cases hk : a.mid = mb.mid
      · exfalso
        have : a.mid ∈ rest.map MailboxDoc.mid :=
          hk ▸ List.mem_map_of_mem MailboxDoc.mid hm
        exact (List.nodup_cons.mp (by simpa using hnd)).1 this
      · simp only [findByIdAndUpdateIncBoth, if_neg hk]
        exact ih hm (List.nodup_cons.mp (by simpa using hnd)).2

/-- Every original document survives in the updated list with the same id
and counters at least as large. -/
lemma alloc_counters_le (L : List MailboxDoc) (k : Nat) :
    ∀ mb ∈ L, ∃ x ∈ (findByIdAndUpdateIncBoth L k).2,
      x.mid = mb.mid ∧ mb.uidNext ≤ x.uidNext ∧
        mb.modifyIndex ≤ x.modifyIndex := by
  induction L with
  | nil => intro mb hm; cases hm
  | cons a rest ih =>
    intro mb hm
    by_cases hk : a.mid = k
    · simp only [findByIdAndUpdateIncBoth, if_pos hk]
      rcases List.mem_cons.mp hm with hm | hm
      · subst hm
        exact ⟨incDoc mb, List.mem_cons_self _ _,
          rfl, Nat.le_succ _, Nat.le_succ _⟩
      · exact ⟨mb, List.mem_cons_of_mem _ hm, rfl, le_refl _, le_refl _⟩
    · simp only [findByIdAndUpdateIncBoth, if_neg hk]
      rcases List.mem_cons.mp hm with hm | hm
      · subst hm
        exact ⟨mb, List.mem_cons_self _ _, rfl, le_refl _, le_refl _⟩
      · obtain ⟨x, hx, hxe⟩ := ih mb hm
        exact ⟨x, List.mem_cons_of_mem _ hx, hxe⟩

/-! ### Path equations for `onAppend` -/

/-- Exact result of an append that runs the whole pipeline to success:
within the cap, not over quota, mailbox resolved, no dedup hit, final
quota check passed, allocator matched the resolved mailbox, persistence
succeeded. -/
lemma onAppend_success_eq (path : String) (flags : List String)
    (raw : RawMessage) (session : Session) (st : Store) (env : Env)
    (mbox : MailboxDoc) (g : GateResult) (p : Prepared)
    (hsz : ¬ raw.size > SIXTY_FOUR_MB_IN_BYTES)
    (hoq : env.isOverQuota = false)
    (hfind : st.mailboxes.find? (fun mb => mb.path = path) = some mbox)
    (hg : encryptionGate session flags raw st.pgpErrorSentAt env = g)
    (hp : env.prepare g.raw = p)
    (hded : session.checkForExisting = false ∨
      st.messages.find? (fun x =>
        x.fingerprint = env.fingerprintOf g.raw &&
        x.mailbox = mbox.mid) = none)
    (hq : ¬ env.storageUsed + p.size > env.maxQuotaPerAlias)
    (halloc : (findByIdAndUpdateIncBoth st.mailboxes mbox.mid).1 = some mbox)
    (hpersist : env.persistErr = none) :
    onAppend path flags raw session st env =
      ({ mailboxes := (findByIdAndUpdateIncBoth st.mailboxes mbox.mid).2,
         messages := st.messages ++ [successMessage flags env mbox g p],
         journal := st.journal ++
           [{ command := "EXISTS", uid := mbox.uidNext,
              mailbox := mbox.mid, message := p.id }],
         blobs := st.blobs ++ p.attachmentIds,
         pgpErrorSentAt := g.pgpErrorSentAt,
         alertEmails := st.alertEmails + g.alertsSent },
       AppendResult.ok
         { uidValidity := mbox.uidValidity, uid := mbox.uidNext,
           id := p.id, mailbox := mbox.mid, mailboxPath := mbox.path,
           size := p.size, status := "new" }) := by
  rcases hded with hded | hded
  · simp [onAppend, hsz, onAppendTry, hoq, hfind, hg, hp, hded, hq, halloc,
      hpersist, successMessage]
  · simp [onAppend, hsz, onAppendTry, hoq, hfind, hg, hp, hded, hq, halloc,
      hpersist, successMessage]

/-- Exact result of an append on which `Messages.create` raises: the
pipeline ran to persistence (blobs stored, counters allocated) and the
catch handler finishes the call. -/
lemma onAppend_persistErr_eq (path : String) (flags : List String)
    (raw : RawMessage) (session : Session) (st : Store) (env : Env)
    (mbox : MailboxDoc) (g : GateResult) (p : Prepared) (e : IMAPErr)
    (hsz : ¬ raw.size > SIXTY_FOUR_MB_IN_BYTES)
    (hoq : env.isOverQuota = false)
    (hfind : st.mailboxes.find? (fun mb => mb.path = path) = some mbox)
    (hg : encryptionGate session flags raw st.pgpErrorSentAt env = g)
    (hp : env.prepare g.raw = p)
    (hded : session.checkForExisting = false ∨
      st.messages.find? (fun x =>
        x.fingerprint = env.fingerprintOf g.raw &&
        x.mailbox = mbox.mid) = none)
    (hq : ¬ env.storageUsed + p.size > env.maxQuotaPerAlias)
    (halloc : (findByIdAndUpdateIncBoth st.mailboxes mbox.mid).1 = some mbox)
    (hpersist : env.persistErr = some e) :
    onAppend path flags raw session st env =
      onAppendCatch
        ⟨{ mailboxes := (findByIdAndUpdateIncBoth st.mailboxes mbox.mid).2,
           messages := st.messages,
           journal := st.journal,
           blobs := st.blobs ++ p.attachmentIds,
           pgpErrorSentAt := g.pgpErrorSentAt,
           alertEmails := st.alertEmails + g.alertsSent },
         !p.attachmentIds.isEmpty, p.attachmentIds, e⟩
        env.cleanupOk := by
  rcases hded with hded | hded
  · simp [onAppend, hsz, onAppendTry, hoq, hfind, hg, hp, hded, hq, halloc,
      hpersist]
  · simp [onAppend, hsz, onAppendTry, hoq, hfind, hg, hp, hded, hq, halloc,
      hpersist]

/-- The catch handler only touches the blob store: messages, mailboxes and
journal pass through, and it returns the refined original error. -/
lemma onAppendCatch_fields (ctx : FailCtx) (ok : Bool) :
    (onAppendCatch ctx ok).1.messages = ctx.st.messages ∧
    (onAppendCatch ctx ok).1.mailboxes = ctx.st.mailboxes ∧
    (onAppendCatch ctx ok).1.journal = ctx.st.journal ∧
    (onAppendCatch ctx ok).2 =
      AppendResult.error (refineAndLogError ctx.err) := by
  by_cases h1 : ctx.attachmentIds.isEmpty <;> by_cases h2 : ok <;>
    by_cases h3 : ctx.hasNodeBodies <;>
      simp [onAppendCatch, h1, h2, h3]

/-- Shape of one full append's effect on messages and mailboxes: either
nothing observable changed there, or only the mailbox counters were
atomically incremented (persistence fault), or additionally exactly one
message was appended whose uid and modseq come from the pre-increment
counters of the allocator's matched document. -/
lemma onAppend_effect (path : String) (flags : List String)
    (raw : RawMessage) (session : Session) (st : Store) (env : Env) :
    ((onAppend path flags raw session st env).1.messages = st.messages ∧
      ((onAppend path flags raw session st env).1.mailboxes = st.mailboxes ∨
        ∃ k, (onAppend path flags raw session st env).1.mailboxes =
          (findByIdAndUpdateIncBoth st.mailboxes k).2)) ∨
    ∃ k mb msg, (findByIdAndUpdateIncBoth st.mailboxes k).1 = some mb ∧
      (onAppend path flags raw session st env).1.mailboxes =
        (findByIdAndUpdateIncBoth st.mailboxes k).2 ∧
      msg.mailbox = mb.mid ∧ msg.uid = mb.uidNext ∧
      msg.modseq = mb.modifyIndex + 1 ∧
      (onAppend path flags raw session st env).1.messages =
        st.messages ++ [msg] := by
  by_cases hsz : raw.size > SIXTY_FOUR_MB_IN_BYTES
  · exact Or.inl ⟨by simp [onAppend, hsz], Or.inl (by simp [onAppend, hsz])⟩
  by_cases hoq : env.isOverQuota = true
  · have E : onAppend path flags raw session st env =
        onAppendCatch ⟨st, false, [],
          { key := "IMAP_MAILBOX_OVER_QUOTA",
            imapResponse := some "OVERQUOTA" }⟩ env.cleanupOk := by
      simp [onAppend, hsz, onAppendTry, hoq]
    rw [E]
    exact Or.inl ⟨(onAppendCatch_fields _ _).1,
      Or.inl (onAppendCatch_fields _ _).2.1⟩
  cases hfind : st.mailboxes.find? (fun mb => mb.path = path) with
  | none =>
    have E : onAppend path flags raw session st env =
        onAppendCatch ⟨st, false, [],
          { key := "IMAP_MAILBOX_DOES_NOT_EXIST",
            imapResponse := some "TRYCREATE" }⟩ env.cleanupOk := by
      simp [onAppend, hsz, onAppendTry, hoq, hfind]
    rw [E]
    exact Or.inl ⟨(onAppendCatch_fields _ _).1,
      Or.inl (onAppendCatch_fields _ _).2.1⟩
  | some mbox =>
    by_cases hchk : session.checkForExisting = true
    · cases hd : st.messages.find? (fun x =>
          x.fingerprint = env.fingerprintOf
            (encryptionGate session flags raw st.pgpErrorSentAt env).raw &&
          x.mailbox = mbox.mid) with
      | some m =>
        exact Or.inl
          ⟨by simp [onAppend, hsz, onAppendTry, hoq, hfind, hchk, hd],
           Or.inl
             (by simp [onAppend, hsz, onAppendTry, hoq, hfind, hchk, hd])⟩
      | none =>
        by_cases hquota : env.storageUsed +
            (env.prepare (encryptionGate session flags raw
              st.pgpErrorSentAt env).raw).size > env.maxQuotaPerAlias
        · simp only [onAppend, hsz, onAppendTry, hoq, hfind, hchk, hd,
            hquota, if_true, if_false]
          exact Or.inl ⟨(onAppendCatch_fields _ _).1,
            Or.inl (onAppendCatch_fields _ _).2.1⟩
        · cases halloc :
            (findByIdAndUpdateIncBoth st.mailboxes mbox.mid).1 with
          | none =>
            simp only [onAppend, hsz, onAppendTry, hoq, hfind, hchk, hd,
              hquota, halloc]
            exact Or.inl ⟨(onAppendCatch_fields _ _).1,
              Or.inl (onAppendCatch_fields _ _).2.1⟩
          | some mb =>
            cases hpe : env.persistErr with
            | some e =>
              simp only [onAppend, hsz, onAppendTry, hoq, hfind, hchk, hd,
                hquota, halloc, hpe]
              exact Or.inl ⟨(onAppendCatch_fields _ _).1,
                Or.inr ⟨mbox.mid, (onAppendCatch_fields _ _).2.1⟩⟩
            | none =>
              simp only [onAppend, hsz, onAppendTry, hoq, hfind, hchk, hd,
                hquota, halloc, hpe]
              exact Or.inr ⟨mbox.mid, mb, _, halloc, rfl, rfl, rfl, rfl, rfl⟩
    · by_cases hquota : env.storageUsed +
          (env.prepare (encryptionGate session flags raw
            st.pgpErrorSentAt env).raw).size > env.maxQuotaPerAlias
      · simp only [onAppend, hsz, onAppendTry, hoq, hfind, hchk,
          hquota, if_true, if_false]
        exact Or.inl ⟨(onAppendCatch_fields _ _).1,
          Or.inl (onAppendCatch_fields _ _).2.1⟩
      · cases halloc :
          (findByIdAndUpdateIncBoth st.mailboxes mbox.mid).1 with
        | none =>
          simp only [onAppend, hsz, onAppendTry, hoq, hfind, hchk,
            hquota, halloc]
          exact Or.inl ⟨(onAppendCatch_fields _ _).1,
            Or.inl (onAppendCatch_fields _ _).2.1⟩
        | some mb =>
          cases hpe : env.persistErr with
          | some e =>
            simp only [onAppend, hsz, onAppendTry, hoq, hfind, hchk,
              hquota, halloc, hpe]
            exact Or.inl ⟨(onAppendCatch_fields _ _).1,
              Or.inr ⟨mbox.mid, (onAppendCatch_fields _ _).2.1⟩⟩
          | none =>
            simp only [onAppend, hsz, onAppendTry, hoq, hfind, hchk,
              hquota, halloc, hpe]
            exact Or.inr ⟨mbox.mid, mb, _, halloc, rfl, rfl, rfl, rfl, rfl⟩

/-- C2: whenever an append stored a new message, the allocation was the
single atomic double increment `findByIdAndUpdateIncBoth` on the target
mailbox — it returned the pre-increment document, replaced exactly that
document by its increment (uidNext + 1, modifyIndex + 1) leaving all
others untouched — and the stored message's uid is the pre-increment
`uidNext` while its modseq is the pre-increment `modifyIndex + 1`. -/
theorem claim_C2 (path : String) (flags : List String) (raw : RawMessage)
    (session : Session) (st : Store) (env : Env) (msg : MessageDoc)
    (h : (onAppend path flags raw session st env).1.messages =
      st.messages ++ [msg]) :
    ∃ mb, (findByIdAndUpdateIncBoth st.mailboxes mb.mid).1 = some mb ∧
      msg.mailbox = mb.mid ∧ msg.uid = mb.uidNext ∧
      msg.modseq = mb.modifyIndex + 1 ∧
      (onAppend path flags raw session st env).1.mailboxes =
        (findByIdAndUpdateIncBoth st.mailboxes mb.mid).2 ∧
      ∃ pre post, st.mailboxes = pre ++ mb :: post ∧
        (findByIdAndUpdateIncBoth st.mailboxes mb.mid).2 =
          pre ++ incDoc mb :: post := by
  rcases onAppend_effect path flags raw session st env with
    ⟨h1, _⟩ | ⟨k, mb, msg2, h1, h2, h3, h4, h5, h6⟩
  · exfalso
    rw [h] at h1
    have := congrArg List.length h1
    simp at this
  · have hk : mb.mid = k := (alloc_decomp st.mailboxes k mb h1).1
    have hmsg : msg2 = msg := by
      rw [h6] at h
      have h7 := List.append_cancel_left h
      simpa using h7
    subst hmsg
    obtain ⟨_, pre, post, hL, hsnd, _⟩ := alloc_decomp st.mailboxes k mb h1
    refine ⟨mb, ?_, h3, h4, h5, ?_, pre, post, hL, ?_⟩
    · rw [hk]; exact h1
    · rw [hk]; exact h2
    · rw [hk]; exact hsnd

/-- C2 witness: the baseline fixture append stores `msgC2` and the
conclusion of the allocation claim holds at it. -/
theorem claim_C2_witness :
    ∃ mb, (findByIdAndUpdateIncBoth st0.mailboxes mb.mid).1 = some mb ∧
      msgC2.mailbox = mb.mid ∧ msgC2.uid = mb.uidNext ∧
      msgC2.modseq = mb.modifyIndex + 1 ∧
      (onAppend "INBOX" [] raw100 sess0 st0 envBase).1.mailboxes =
        (findByIdAndUpdateIncBoth st0.mailboxes mb.mid).2 ∧
      ∃ pre post, st0.mailboxes = pre ++ mb :: post ∧
        (findByIdAndUpdateIncBoth st0.mailboxes mb.mid).2 =
          pre ++ incDoc mb :: post :=
  claim_C2 "INBOX" [] raw100 sess0 st0 envBase msgC2 (by decide)

/-! ### Invariant preservation and C3 -/

/-- `storeLe` is transitive. -/
lemma storeLe_trans {a b c : Store} (h1 : storeLe a b) (h2 : storeLe b c) :
    storeLe a c := by
  intro mb hm
  obtain ⟨x, hx, hxm, hxu, hxi⟩ := h1 mb hm
  obtain ⟨y, hy, hym, hyu, hyi⟩ := h2 x hx
  exact ⟨y, hy, hym.trans hxm, hxu.trans hyu, hxi.trans hyi⟩

/-- One append preserves the id-uniqueness, counter-bound and ordering
invariants and never decreases any mailbox's counters. -/
lemma inv_onAppend (path : String) (flags : List String) (raw : RawMessage)
    (session : Session) (st : Store) (env : Env)
    (hnd : midsNodup st) (hcb : countersBound st)
    (hmo : messagesOrdered st) :
    midsNodup (onAppend path flags raw session st env).1 ∧
    countersBound (onAppend path flags raw session st env).1 ∧
    messagesOrdered (onAppend path flags raw session st env).1 ∧
    storeLe st (onAppend path flags raw session st env).1 := by
  rcases onAppend_effect path flags raw session st env with
    ⟨hm, hb | ⟨k, hb⟩⟩ | ⟨k, mb, msg, h1, hb, h3, h4, h5, hm⟩
  · refine ⟨?_, ?_, ?_, ?_⟩
    · unfold midsNodup; rw [hb]; exact hnd
    · unfold countersBound; rw [hm, hb]; exact hcb
    · unfold messagesOrdered; rw [hm]; exact hmo
    · intro mb0 h0; rw [hb]
      exact ⟨mb0, h0, rfl, le_refl _, le_refl _⟩
  · refine ⟨?_, ?_, ?_, ?_⟩
    · unfold midsNodup; rw [hb, alloc_map_mid]; exact hnd
    · intro m hm2 mb2 hmb2 heq
      rw [hm] at hm2
      rw [hb] at hmb2
      rcases alloc_mem_cases st.mailboxes k mb2 hmb2 with hx | ⟨mb0, _, hx⟩
      · exact hcb m hm2 mb2 hx heq
      · subst hx
        have hmb0 : mb0 ∈ st.mailboxes ∧ mb0.mid = k := by
          obtain ⟨hk2, pre, post, hL, _, _⟩ :=
            alloc_decomp st.mailboxes k mb0 (by assumption)
          exact ⟨hL ▸ List.mem_append.mpr
            (Or.inr (List.mem_cons_self _ _)), hk2⟩
        have heq2 : m.mailbox = mb0.mid := heq
        obtain ⟨hu, hi⟩ := hcb m hm2 mb0 hmb0.1 heq2
        exact ⟨Nat.lt_succ_of_lt hu, Nat.le_succ_of_le hi⟩
    · unfold messagesOrdered; rw [hm]; exact hmo
    · intro mb0 h0; rw [hb]
      exact alloc_counters_le st.mailboxes k mb0 h0
  · have hdec := alloc_decomp st.mailboxes k mb h1
    have hmbmem : mb ∈ st.mailboxes := by
      obtain ⟨_, pre, post, hL, _, _⟩ := hdec
      exact hL ▸ List.mem_append.mpr (Or.inr (List.mem_cons_self _ _))
    refine ⟨?_, ?_, ?_, ?_⟩
    · unfold midsNodup; rw [hb, alloc_map_mid]; exact hnd
    · intro m hm2 mb2 hmb2 heq
      rw [hm] at hm2
      rw [hb] at hmb2
      rcases List.mem_append.mp hm2 with hm2 | hm2
      · rcases alloc_mem_cases st.mailboxes k mb2 hmb2 with hx | ⟨mb0, h0, hx⟩
        · exact hcb m hm2 mb2 hx heq
        · subst hx
          have hmb0 : mb0 ∈ st.mailboxes := by
            obtain ⟨_, pre, post, hL, _, _⟩ :=
              alloc_decomp st.mailboxes k mb0 h0
            exact hL ▸ List.mem_append.mpr
              (Or.inr (List.mem_cons_self _ _))
          obtain ⟨hu, hi⟩ := hcb m hm2 mb0 hmb0 heq
          exact ⟨Nat.lt_succ_of_lt hu, Nat.le_succ_of_le hi⟩
      · have hm3 : m = msg := by simpa using hm2
        subst hm3
        have hk2 : mb2.mid = k := by rw [← heq, h3, hdec.1]
        have hx : mb2 = incDoc mb :=
          alloc_unique_mid st.mailboxes k mb hnd h1 mb2 hmb2 hk2
        subst hx
        constructor
        · rw [h4]; exact Nat.lt_succ_self _
        · rw [h5]; exact le_refl _
    · unfold messagesOrdered at hmo ⊢
      rw [hm]
      rw [List.pairwise_append]
      refine ⟨hmo, List.pairwise_singleton _ _, ?_⟩
      intro a ha b hb2
      have hb3 : b = msg := by simpa using hb2
      subst hb3
      intro hab
      have hab2 : a.mailbox = mb.mid := by rw [hab, h3]
      obtain ⟨hu, hi⟩ := hcb a ha mb hmbmem hab2
      exact ⟨h4 ▸ hu, h5 ▸ Nat.lt_succ_of_le hi⟩
    · intro mb0 h0; rw [hb]
      exact alloc_counters_le st.mailboxes k mb0 h0

/-- Running any sequence of appends preserves the three invariants and
never decreases any mailbox's counters. -/
lemma inv_runAppends (st : Store) (reqs : List AppendReq)
    (hnd : midsNodup st) (hcb : countersBound st)
    (hmo : messagesOrdered st) :
    midsNodup (runAppends st reqs) ∧ countersBound (runAppends st reqs) ∧
    messagesOrdered (runAppends st reqs) ∧
    storeLe st (runAppends st reqs) := by
  induction reqs generalizing st with
  | nil =>
    exact ⟨hnd, hcb, hmo, fun mb h => ⟨mb, h, rfl, le_refl _, le_refl _⟩⟩
  | cons r rest ih =>
    obtain ⟨h1, h2, h3, h4⟩ :=
      inv_onAppend r.path r.flags r.raw r.session st r.env hnd hcb hmo
    obtain ⟨g1, g2, g3, g4⟩ :=
      ih (onAppend r.path r.flags r.raw r.session st r.env).1 h1 h2 h3
    exact ⟨g1, g2, g3, storeLe_trans h4 g4⟩

/-- C3: across any sequence of appends starting from a store with distinct
mailbox ids whose stored messages respect the counter bounds, the final
store still has strictly increasing (uid, modseq) pairs per mailbox in
creation order (so allocated pairs never repeat), every message's
identifiers stay below its mailbox's counters, and every mailbox's
`uidNext` and `modifyIndex` never decrease. -/
theorem claim_C3 (st : Store) (reqs : List AppendReq)
    (hnd : midsNodup st) (hcb : countersBound st)
    (hmo : messagesOrdered st) :
    messagesOrdered (runAppends st reqs) ∧
    countersBound (runAppends st reqs) ∧
    storeLe st (runAppends st reqs) := by
  obtain ⟨_, h2, h3, h4⟩ := inv_runAppends st reqs hnd hcb hmo
  exact ⟨h3, h2, h4⟩

/-- C3 witness: the invariants hold after two appends to the fixture
store. -/
theorem claim_C3_witness :
    messagesOrdered (runAppends st0 reqs2) ∧
    countersBound (runAppends st0 reqs2) ∧
    storeLe st0 (runAppends st0 reqs2) :=
  claim_C3 st0 reqs2 (by unfold midsNodup; decide)
    (by unfold countersBound; decide) (by unfold messagesOrdered; decide)

/-! ### Quota boundary (C4) -/

/-- The catch handler is the identity on the store when no node bodies had
been stored. -/
lemma onAppendCatch_no_bodies (s : Store) (ids : List Nat) (e : IMAPErr)
    (ok : Bool) :
    onAppendCatch ⟨s, false, ids, e⟩ ok =
      (s, AppendResult.error (refineAndLogError e)) := by
  simp [onAppendCatch]

/-- C4: at the final quota check, an append whose `storageUsed + size` is
exactly the domain maximum succeeds, while one that exceeds it by at least
one byte fails with the message-exceeds-quota error carrying the OVERQUOTA
hint and writes nothing. -/
theorem claim_C4 (path : String) (flags : List String) (raw : RawMessage)
    (session : Session) (st : Store) (env : Env) (mbox : MailboxDoc)
    (hsz : ¬ raw.size > SIXTY_FOUR_MB_IN_BYTES)
    (hoq : env.isOverQuota = false)
    (hfind : st.mailboxes.find? (fun mb => mb.path = path) = some mbox)
    (hnd : midsNodup st)
    (hded : session.checkForExisting = false ∨
      st.messages.find? (fun x =>
        x.fingerprint = env.fingerprintOf
          (encryptionGate session flags raw st.pgpErrorSentAt env).raw &&
        x.mailbox = mbox.mid) = none) :
    (env.storageUsed +
        (env.prepare (encryptionGate session flags raw st.pgpErrorSentAt
          env).raw).size = env.maxQuotaPerAlias →
      env.persistErr = none →
      ∃ st2 resp, onAppend path flags raw session st env =
        (st2, AppendResult.ok resp) ∧ resp.status = "new") ∧
    (env.storageUsed +
        (env.prepare (encryptionGate session flags raw st.pgpErrorSentAt
          env).raw).size > env.maxQuotaPerAlias →
      ∃ st2, onAppend path flags raw session st env =
        (st2, AppendResult.error
          { key := "IMAP_MAILBOX_MESSAGE_EXCEEDS_QUOTA",
            imapResponse := some "OVERQUOTA" }) ∧
        st2.mailboxes = st.mailboxes ∧ st2.messages = st.messages ∧
        st2.journal = st.journal ∧ st2.blobs = st.blobs) := by
  constructor
  · intro hsum hpe
    have hq : ¬ env.storageUsed +
        (env.prepare (encryptionGate session flags raw st.pgpErrorSentAt
          env).raw).size > env.maxQuotaPerAlias := by omega
    have hmem : mbox ∈ st.mailboxes := List.mem_of_find?_eq_some hfind
    have halloc := alloc_fst_of_mem_nodup st.mailboxes mbox hmem hnd
    have E := onAppend_success_eq path flags raw session st env mbox
      (encryptionGate session flags raw st.pgpErrorSentAt env)
      (env.prepare (encryptionGate session flags raw st.pgpErrorSentAt
        env).raw)
      hsz hoq hfind rfl rfl hded hq halloc hpe
    exact ⟨_, _, E, rfl⟩
  · intro hgt
    have E : onAppend path flags raw session st env =
        onAppendCatch
          ⟨{ mailboxes := st.mailboxes, messages := st.messages,
             journal := st.journal, blobs := st.blobs,
             pgpErrorSentAt := (encryptionGate session flags raw
               st.pgpErrorSentAt env).pgpErrorSentAt,
             alertEmails := st.alertEmails + (encryptionGate session flags
               raw st.pgpErrorSentAt env).alertsSent },
           false, [],
           { key := "IMAP_MAILBOX_MESSAGE_EXCEEDS_QUOTA",
             imapResponse := some "OVERQUOTA" }⟩ env.cleanupOk := by
      rcases hded with hded | hded
      · simp [onAppend, hsz, onAppendTry, hoq, hfind, hded, hgt]
      · simp [onAppend, hsz, onAppendTry, hoq, hfind, hded, hgt]
    rw [E, onAppendCatch_no_bodies]
    exact ⟨_, rfl, rfl, rfl, rfl, rfl⟩

/-- C4 witness: size 100 against a quota of exactly 100 succeeds; against
a quota of 99 it is rejected OVERQUOTA with nothing written. -/
theorem claim_C4_witness :
    (∃ st2 resp, onAppend "INBOX" [] raw100 sess0 st0 envEq =
      (st2, AppendResult.ok resp) ∧ resp.status = "new") ∧
    (∃ st2, onAppend "INBOX" [] raw100 sess0 st0 envOver =
      (st2, AppendResult.error
        { key := "IMAP_MAILBOX_MESSAGE_EXCEEDS_QUOTA",
          imapResponse := some "OVERQUOTA" }) ∧
      st2.mailboxes = st0.mailboxes ∧ st2.messages = st0.messages ∧
      st2.journal = st0.journal ∧ st2.blobs = st0.blobs) :=
  ⟨(claim_C4 "INBOX" [] raw100 sess0 st0 envEq mbInbox (by decide)
      (by decide) (by decide) (by unfold midsNodup; decide)
      (Or.inl (by decide))).1 (by decide) (by decide),
   (claim_C4 "INBOX" [] raw100 sess0 st0 envOver mbInbox (by decide)
      (by decide) (by decide) (by unfold midsNodup; decide)
      (Or.inl (by decide))).2 (by decide)⟩

/-! ### Encryption gate (C7) and alert throttling (C8) -/

/-- When the encryption oracle raises, the gate hands the original raw
message on unchanged, whatever the error classification. -/
lemma encryptionGate_raw_of_error (session : Session) (flags : List String)
    (raw : RawMessage) (sentAt : Option Int) (env : Env) (e : EncFailure)
    (h : env.encrypt raw = Except.error e) :
    (encryptionGate session flags raw sentAt env).raw = raw := by
  unfold encryptionGate
  split
  · simp only [h]
    split <;> rfl
  · rfl

/-- C7: the gate runs exactly when the message is not flagged Draft and
the owner has PGP enabled with a public key on file (first and second
conjuncts: the guard is that condition, and when it is false the gate is
the identity whatever the encryption oracle would do); when it runs and
encryption succeeds the encrypted bytes flow on (third conjunct); and when
the oracle raises the append still proceeds and stores the message parsed
from the original, unencrypted raw — the caller is never failed by an
encryption error (fourth and fifth conjuncts). -/
theorem claim_C7 (session : Session) (flags : List String)
    (raw : RawMessage) (sentAt : Option Int) (env : Env)
    (f : RawMessage → Except EncFailure RawMessage)
    (path : String) (st : Store) (mbox : MailboxDoc) (e : EncFailure) :
    (shouldEncrypt session flags = true ↔
      (flags.contains draftFlag = false ∧
       session.user.alias_has_pgp = true ∧
       session.user.alias_public_key.isSome = true)) ∧
    (shouldEncrypt session flags = false →
      encryptionGate session flags raw sentAt { env with encrypt := f } =
        { raw := raw, pgpErrorSentAt := sentAt, alertsSent := 0 }) ∧
    (∀ r2, shouldEncrypt session flags = true →
      env.encrypt raw = Except.ok r2 →
      (encryptionGate session flags raw sentAt env).raw = r2) ∧
    (env.encrypt raw = Except.error e →
      (encryptionGate session flags raw sentAt env).raw = raw) ∧
    (¬ raw.size > SIXTY_FOUR_MB_IN_BYTES →
     env.isOverQuota = false →
     st.mailboxes.find? (fun mb => mb.path = path) = some mbox →
     midsNodup st →
     env.encrypt raw = Except.error e →
     (session.checkForExisting = false ∨
       st.messages.find? (fun x =>
         x.fingerprint = env.fingerprintOf
           (encryptionGate session flags raw st.pgpErrorSentAt env).raw &&
         x.mailbox = mbox.mid) = none) →
     ¬ env.storageUsed +
         (env.prepare (encryptionGate session flags raw st.pgpErrorSentAt
           env).raw).size > env.maxQuotaPerAlias →
     env.persistErr = none →
     ∃ st2 msg resp, onAppend path flags raw session st env =
       (st2, AppendResult.ok resp) ∧
       st2.messages = st.messages ++ [msg] ∧ msg.mimeTree = raw) := by
  refine ⟨?_, ?_, ?_, ?_, ?_⟩
  · unfold shouldEncrypt
    cases hb : flags.contains draftFlag <;>
      cases hp : session.user.alias_has_pgp <;>
        cases hk : session.user.alias_public_key.isSome <;> simp
  · intro hc
    simp [encryptionGate, hc]
  · intro r2 hc hok
    simp [encryptionGate, hc, hok]
  · intro herr
    exact encryptionGate_raw_of_error session flags raw sentAt env e herr
  · intro hsz hoq hfind hnd herr hded hq hpe
    have hmem : mbox ∈ st.mailboxes := List.mem_of_find?_eq_some hfind
    have halloc := alloc_fst_of_mem_nodup st.mailboxes mbox hmem hnd
    have E := onAppend_success_eq path flags raw session st env mbox
      (encryptionGate session flags raw st.pgpErrorSentAt env)
      (env.prepare (encryptionGate session flags raw st.pgpErrorSentAt
        env).raw)
      hsz hoq hfind rfl rfl hded hq halloc hpe
    refine ⟨_, _, _, E, rfl, ?_⟩
    have hraw := encryptionGate_raw_of_error session flags raw
      st.pgpErrorSentAt env e herr
    simpa [successMessage] using hraw

/-- C7 witness: with the failing encryption oracle the fixture append
still succeeds and stores the message parsed from the original raw. -/
theorem claim_C7_witness :
    ∃ st2 msg resp, onAppend "INBOX" [] raw100 sessPgp st0 envEncFail =
      (st2, AppendResult.ok resp) ∧
      st2.messages = st0.messages ++ [msg] ∧ msg.mimeTree = raw100 :=
  (claim_C7 sessPgp [] raw100 none envEncFail (fun r => Except.ok r)
      "INBOX" st0 mbInbox encErrPerm).2.2.2.2
    (by decide) (by decide) (by decide) (by unfold midsNodup; decide)
    rfl (Or.inl (by decide)) (by decide) (by decide)

/-- Two throttle rounds within one day deliver at most one alert email. -/
lemma pgpAlertThrottle_two (s0 : Option Int) (t0 t1 r0 r1 : Int)
    (ok0 ok1 : Bool) (h1 : t0 ≤ r0) (_h2 : t0 ≤ t1)
    (h3 : t1 < t0 + dayMs) :
    (pgpAlertThrottle s0 t0 r0 ok0).2 +
      (pgpAlertThrottle (pgpAlertThrottle s0 t0 r0 ok0).1 t1 r1 ok1).2
      ≤ 1 := by
  rcases s0 with _ | t
  · cases ok0 with
    | true =>
      have hx : ¬ r0 ≤ t1 - dayMs := by omega
      simp [pgpAlertThrottle, hx]
    | false =>
      cases ok1 <;> simp [pgpAlertThrottle]
  · by_cases hm : t ≤ t0 - dayMs
    · cases ok0 with
      | true =>
        have hx : ¬ r0 ≤ t1 - dayMs := by omega
        simp [pgpAlertThrottle, hm, hx]
      | false =>
        cases ok1 <;> simp [pgpAlertThrottle, hm]
    · by_cases hm2 : t ≤ t1 - dayMs <;> cases ok1 <;>
        simp [pgpAlertThrottle, hm, hm2]

/-- C8 counterexample: two permanent encryption failures 3 hours apart
(well within 24 hours) deliver TWO alert emails when a successful
encryption runs in between, because the success path deliberately unsets
a `pgp_error_sent_at` stamp older than one hour and thereby re-arms the
alert. -/
theorem claim_C8_counterexample :
    (encryptionGate sessPgp [] raw100 none envEncFail).alertsSent +
      (encryptionGate sessPgp [] raw100
        (encryptionGate sessPgp [] raw100
          (encryptionGate sessPgp [] raw100 none envEncFail).pgpErrorSentAt
          envEncOk2h).pgpErrorSentAt
        envEncFail3h).alertsSent = 2 ∧
    envEncFail3h.now - envEncFail.now < dayMs := by decide

/-- C8 amended: two permanent (neither code-bug nor retryable) encryption
failures for the same owner within 24 hours of each other, with no other
encryption-gate run for that owner in between, deliver at most one alert
email, enforced by the single conditional update that sets the last-alert
stamp only when it is absent or at least 24 hours old. -/
theorem claim_C8 (session : Session) (flags0 flags1 : List String)
    (raw0 raw1 : RawMessage) (s0 : Option Int) (env0 env1 : Env)
    (e0 e1 : EncFailure)
    (hs0 : shouldEncrypt session flags0 = true)
    (hs1 : shouldEncrypt session flags1 = true)
    (henc0 : env0.encrypt raw0 = Except.error e0)
    (henc1 : env1.encrypt raw1 = Except.error e1)
    (hb0 : e0.codeBug = false) (hr0 : e0.retryable = false)
    (hb1 : e1.codeBug = false) (hr1 : e1.retryable = false)
    (hrt : env0.now ≤ env0.refreshTime)
    (h01 : env0.now ≤ env1.now)
    (hlt : env1.now < env0.now + dayMs) :
    (encryptionGate session flags0 raw0 s0 env0).alertsSent +
      (encryptionGate session flags1 raw1
        (encryptionGate session flags0 raw0 s0 env0).pgpErrorSentAt
        env1).alertsSent ≤ 1 := by
  have hg0 : encryptionGate session flags0 raw0 s0 env0 =
      { raw := raw0,
        pgpErrorSentAt :=
          (pgpAlertThrottle s0 env0.now env0.refreshTime env0.emailOk).1,
        alertsSent :=
          (pgpAlertThrottle s0 env0.now env0.refreshTime env0.emailOk).2 } := by
    simp [encryptionGate, hs0, henc0, hb0, hr0]
  have hg1 : ∀ s : Option Int,
      encryptionGate session flags1 raw1 s env1 =
        { raw := raw1,
          pgpErrorSentAt :=
            (pgpAlertThrottle s env1.now env1.refreshTime env1.emailOk).1,
          alertsSent :=
            (pgpAlertThrottle s env1.now env1.refreshTime env1.emailOk).2 } := by
    intro s
    simp [encryptionGate, hs1, henc1, hb1, hr1]
  rw [hg0, hg1]
  exact pgpAlertThrottle_two s0 env0.now env1.now env0.refreshTime
    env1.refreshTime env0.emailOk env1.emailOk hrt h01 hlt

/-- C8 witness: two failing gates at times 0 and 1000 ms produce at most
one alert. -/
theorem claim_C8_witness :
    (encryptionGate sessPgp [] raw100 none envEncFail).alertsSent +
      (encryptionGate sessPgp [] raw100
        (encryptionGate sessPgp [] raw100 none envEncFail).pgpErrorSentAt
        envEncFail2).alertsSent ≤ 1 :=
  claim_C8 sessPgp [] [] raw100 raw100 none envEncFail envEncFail2
    encErrPerm encErrPerm (by decide) (by decide) rfl rfl
    (by decide) (by decide) (by decide) (by decide) (by decide) (by decide)
    (by decide)

/-! ### Blob cleanup on failure (C9) and the Drafts flag (C10) -/

/-- Deleting exactly the freshly appended blob ids restores the blob
store, when none of them was already present. -/
lemma deleteMany_append_fresh (xs ids : List Nat)
    (h : ∀ b ∈ ids, b ∉ xs) :
    deleteManyBlobs (xs ++ ids) ids = xs := by
  induction ids generalizing xs with
  | nil => simp [deleteManyBlobs]
  | cons i rest ih =>
    unfold deleteManyBlobs
    simp only [List.foldl_cons]
    have h1 : (xs ++ i :: rest).erase i = xs ++ rest := by
      rw [List.erase_append_right _ (h i (List.mem_cons_self _ _))]
      simp [List.erase_cons_head]
    rw [h1]
    exact ih xs (fun b hb => h b (List.mem_cons_of_mem _ hb))

/-- C9: when persistence raises after the attachment blobs were stored,
the catch handler deletes every blob stored for this append — the blob
store is exactly restored — before propagating the refined original
error; and when the cleanup itself fails, the blobs remain but the very
same original error is still the one propagated. -/
theorem claim_C9 (path : String) (flags : List String) (raw : RawMessage)
    (session : Session) (st : Store) (env : Env) (mbox : MailboxDoc)
    (e : IMAPErr)
    (hsz : ¬ raw.size > SIXTY_FOUR_MB_IN_BYTES)
    (hoq : env.isOverQuota = false)
    (hfind : st.mailboxes.find? (fun mb => mb.path = path) = some mbox)
    (hnd : midsNodup st)
    (hded : session.checkForExisting = false ∨
      st.messages.find? (fun x =>
        x.fingerprint = env.fingerprintOf
          (encryptionGate session flags raw st.pgpErrorSentAt env).raw &&
        x.mailbox = mbox.mid) = none)
    (hq : ¬ env.storageUsed +
        (env.prepare (encryptionGate session flags raw st.pgpErrorSentAt
          env).raw).size > env.maxQuotaPerAlias)
    (hpe : env.persistErr = some e)
    (hfresh : ∀ b ∈ (env.prepare (encryptionGate session flags raw
        st.pgpErrorSentAt env).raw).attachmentIds, b ∉ st.blobs) :
    (env.cleanupOk = true →
      (onAppend path flags raw session st env).2 =
        AppendResult.error (refineAndLogError e) ∧
      (onAppend path flags raw session st env).1.blobs = st.blobs ∧
      (onAppend path flags raw session st env).1.messages = st.messages ∧
      (onAppend path flags raw session st env).1.journal = st.journal) ∧
    (env.cleanupOk = false →
      (onAppend path flags raw session st env).2 =
        AppendResult.error (refineAndLogError e) ∧
      (onAppend path flags raw session st env).1.blobs = st.blobs ++
        (env.prepare (encryptionGate session flags raw st.pgpErrorSentAt
          env).raw).attachmentIds ∧
      (onAppend path flags raw session st env).1.messages =
        st.messages) := by
  have hmem : mbox ∈ st.mailboxes := List.mem_of_find?_eq_some hfind
  have halloc := alloc_fst_of_mem_nodup st.mailboxes mbox hmem hnd
  have E := onAppend_persistErr_eq path flags raw session st env mbox
    (encryptionGate session flags raw st.pgpErrorSentAt env)
    (env.prepare (encryptionGate session flags raw st.pgpErrorSentAt
      env).raw) e
    hsz hoq hfind rfl rfl hded hq halloc hpe
  rw [E]
  constructor
  · intro hc
    by_cases hids : (env.prepare (encryptionGate session flags raw
        st.pgpErrorSentAt env).raw).attachmentIds.isEmpty
    · have hnil : (env.prepare (encryptionGate session flags raw
          st.pgpErrorSentAt env).raw).attachmentIds = [] := by
        simpa using hids
      simp [onAppendCatch, hids, hnil]
    · simp [onAppendCatch, hids, hc,
        deleteMany_append_fresh st.blobs _ hfresh]
  · intro hc
    by_cases hids : (env.prepare (encryptionGate session flags raw
        st.pgpErrorSentAt env).raw).attachmentIds.isEmpty
    · have hnil : (env.prepare (encryptionGate session flags raw
          st.pgpErrorSentAt env).raw).attachmentIds = [] := by
        simpa using hids
      simp [onAppendCatch, hids, hnil]
    · simp [onAppendCatch, hids, hc]

/-- C9 witness: with blobs 31 and 32 stored and a persistence fault, the
cleanup restores the blob store and the database error is what comes
back; with failing cleanup the blobs stay and the same error comes
back. -/
theorem claim_C9_witness :
    ((onAppend "INBOX" [] raw100 sess0 st0 envPersist).2 =
        AppendResult.error (refineAndLogError errDb) ∧
      (onAppend "INBOX" [] raw100 sess0 st0 envPersist).1.blobs =
        st0.blobs ∧
      (onAppend "INBOX" [] raw100 sess0 st0 envPersist).1.messages =
        st0.messages ∧
      (onAppend "INBOX" [] raw100 sess0 st0 envPersist).1.journal =
        st0.journal) ∧
    ((onAppend "INBOX" [] raw100 sess0 st0 envPersistNoClean).2 =
        AppendResult.error (refineAndLogError errDb) ∧
      (onAppend "INBOX" [] raw100 sess0 st0 envPersistNoClean).1.blobs =
        st0.blobs ++
          (envPersistNoClean.prepare (encryptionGate sess0 [] raw100
            st0.pgpErrorSentAt envPersistNoClean).raw).attachmentIds ∧
      (onAppend "INBOX" [] raw100 sess0 st0
        envPersistNoClean).1.messages = st0.messages) :=
  ⟨(claim_C9 "INBOX" [] raw100 sess0 st0 envPersist mbInbox errDb
      (by decide) (by decide) (by decide) (by unfold midsNodup; decide)
      (Or.inl (by decide)) (by decide) rfl (by decide)).1 rfl,
   (claim_C9 "INBOX" [] raw100 sess0 st0 envPersistNoClean mbInbox errDb
      (by decide) (by decide) (by decide) (by unfold midsNodup; decide)
      (Or.inl (by decide)) (by decide) rfl (by decide)).2 rfl⟩

/-- C10: a successful append into a mailbox whose special-use tag is
`\Drafts` stores a message whose flags contain `\Draft`, whatever flags
the caller supplied. -/
theorem claim_C10 (path : String) (flags : List String) (raw : RawMessage)
    (session : Session) (st : Store) (env : Env) (mbox : MailboxDoc)
    (hsz : ¬ raw.size > SIXTY_FOUR_MB_IN_BYTES)
    (hoq : env.isOverQuota = false)
    (hfind : st.mailboxes.find? (fun mb => mb.path = path) = some mbox)
    (hnd : midsNodup st)
    (hded : session.checkForExisting = false ∨
      st.messages.find? (fun x =>
        x.fingerprint = env.fingerprintOf
          (encryptionGate session flags raw st.pgpErrorSentAt env).raw &&
        x.mailbox = mbox.mid) = none)
    (hq : ¬ env.storageUsed +
        (env.prepare (encryptionGate session flags raw st.pgpErrorSentAt
          env).raw).size > env.maxQuotaPerAlias)
    (hpe : env.persistErr = none)
    (hdr : mbox.specialUse = some "\\Drafts") :
    ∃ st2 msg resp, onAppend path flags raw session st env =
      (st2, AppendResult.ok resp) ∧
      st2.messages = st.messages ++ [msg] ∧ draftFlag ∈ msg.flags := by
  have hmem : mbox ∈ st.mailboxes := List.mem_of_find?_eq_some hfind
  have halloc := alloc_fst_of_mem_nodup st.mailboxes mbox hmem hnd
  have E := onAppend_success_eq path flags raw session st env mbox
    (encryptionGate session flags raw st.pgpErrorSentAt env)
    (env.prepare (encryptionGate session flags raw st.pgpErrorSentAt
      env).raw)
    hsz hoq hfind rfl rfl hded hq halloc hpe
  refine ⟨_, _, _, E, rfl, ?_⟩
  simp [successMessage, hdr]

/-- C10 witness: appending with no flags to the Drafts fixture mailbox
stores a message flagged `\Draft`. -/
theorem claim_C10_witness :
    ∃ st2 msg resp, onAppend "Drafts" [] raw100 sess0 st0 envBase =
      (st2, AppendResult.ok resp) ∧
      st2.messages = st0.messages ++ [msg] ∧ draftFlag ∈ msg.flags :=
  claim_C10 "Drafts" [] raw100 sess0 st0 envBase mbDrafts (by decide)
    (by decide) (by decide) (by unfold midsNodup; decide)
    (Or.inl (by decide)) (by decide) (by decide) (by decide)

end ForwardEmail
